import Mathlib

/-!
# Verification of the SQS wrapper script (`src/sqs.py`)

This file shallowly embeds the queue-management script and the
registry / message-lifecycle design described in its specification.

* The functions under `src/sqs.py` (`sqs_delete_queue`,
  `sqs_create_queue_dead_dependency`, `get_queue_arn`, `poll_queue`,
  `process_queue`, `send_batch_messages`, the `__main__` driver) are embedded
  from the source.
* The Queue Registry (`register` / `resolveArn` / `attachRedrivePolicy`) and
  the message-lifecycle operations (`extendVisibility`, `deleteMessage`,
  `receive`, `sendBatch` per-entry semantics) are designs that appear only in
  the specification: the script forwards those calls to the remote backend.
  They are modelled here from the spec's words, each marked
  `Modelled from the spec:` in its doc comment.

Machine integers do not overflow in this code path; counts and times are `Nat`
(and `Int` where the spec speaks of an arbitrary integer).
-/

namespace SQS

/-! ## Backend model for queue deletion (`sqs_delete_queue`) -/

/-- A queue URL, an opaque string. -/
abbrev Url := String

/-- The remote backend state visible to `sqs_delete_queue`: the set of
existing queues, as a list of URLs. -/
structure Backend where
  queues : List Url
deriving DecidableEq, Repr

/-- The `ResponseMetadata` acknowledgement a successful `delete_queue`
backend call returns. -/
structure Resp where
  ok : Bool
deriving DecidableEq, Repr

/-- Backend errors surfaced by the transport. -/
inductive BErr where
  | queueDoesNotExist
deriving DecidableEq, Repr

/-- Errors `sqs_delete_queue` can raise: the local `TypeError` for a bad
argument type, or a backend error propagated from `client.delete_queue`. -/
inductive PyErr where
  | typeError
  | backend (e : BErr)
deriving DecidableEq, Repr

/-- One `client.delete_queue(QueueUrl=url)` call: removes the queue when it
exists, fails with the backend's nonexistent-queue error otherwise. -/
def delete_queue (b : Backend) (u : Url) : Except BErr (Resp × Backend) :=
  if u ∈ b.queues then .ok (⟨true⟩, ⟨b.queues.erase u⟩)
  else .error .queueDoesNotExist

/-- The argument of `sqs_delete_queue`: Python's `url` is dynamically typed,
either a `str`, a `set` of strings, or anything else. -/
inductive DeleteArg where
  | str (u : Url)
  | set (us : List Url)
  | other
deriving DecidableEq, Repr

/-- What `sqs_delete_queue` returns on success: one `ResponseMetadata` dict
for a string argument, a URL-keyed dict of them for a set argument. -/
inductive DeleteResult where
  | single (r : Resp)
  | dict (rs : List (Url × Resp))
deriving DecidableEq, Repr

/-- The loop body of `sqs_delete_queue`'s set branch: delete each URL in
turn, accumulating `url ↦ response`; a backend exception aborts the loop but
the deletions already performed stay performed.  Returns the result (or
error), the backend state after the call, and the number of backend calls
made. -/
def delete_loop (b : Backend) (us : List Url) (acc : List (Url × Resp))
    (calls : Nat) : Except PyErr DeleteResult × Backend × Nat :=
  match us with
  | [] => (.ok (.dict acc), b, calls)
  | u :: rest =>
    match delete_queue b u with
    | .ok (r, b') => delete_loop b' rest (acc ++ [(u, r)]) (calls + 1)
    | .error e => (.error (.backend e), b, calls + 1)

/-- `sqs_delete_queue(client, url)` from the source: dispatches on the
runtime type of `url`; a `str` makes one backend call, a `set` loops over its
elements, anything else raises `TypeError` before any backend call. -/
def sqs_delete_queue (b : Backend) (arg : DeleteArg) :
    Except PyErr DeleteResult × Backend × Nat :=
  match arg with
  | .str u =>
    match delete_queue b u with
    | .ok (r, b') => (.ok (.single r), b', 1)
    | .error e => (.error (.backend e), b, 1)
  | .set us => delete_loop b us [] 0
  | .other => (.error .typeError, b, 0)

/-! ## Queue creation with a redrive policy (`sqs_create_queue_dead_dependency`) -/

/-- The JSON redrive policy the script builds:
`{'deadLetterTargetArn': dep_arn, 'maxReceiveCount': 3}`. -/
structure RedrivePolicyJson where
  deadLetterTargetArn : String
  maxReceiveCount : Nat
deriving DecidableEq, Repr

/-- The `Attributes` dict passed to `create_queue` by
`sqs_create_queue_dead_dependency`. -/
structure QueueAttrs where
  delaySeconds : Nat
  maximumMessageSize : Nat
  visibilityTimeout : Nat
  messageRetentionPeriod : Nat
  receiveMessageWaitTimeSeconds : Nat
  redrivePolicy : RedrivePolicyJson
deriving DecidableEq, Repr

/-- A created queue's description: its name and its attributes. -/
structure QueueDesc where
  name : String
  attrs : QueueAttrs
deriving DecidableEq, Repr

/-- The default queue name `QUEUE_MAIN` used when `name` is `None`. -/
def QUEUE_MAIN : String := "main_queue"

/-- `sqs_create_queue_dead_dependency(client, dep_arn, name)`: constructs the
policy `{deadLetterTargetArn: dep_arn, maxReceiveCount: 3}` and calls
`create_queue` with the fixed attribute dict from the source. -/
def sqs_create_queue_dead_dependency (dep_arn : String)
    (name : Option String) : QueueDesc :=
  { name := name.getD QUEUE_MAIN
    attrs :=
      { delaySeconds := 0
        maximumMessageSize := 262144
        visibilityTimeout := 30
        messageRetentionPeriod := 345680
        receiveMessageWaitTimeSeconds := 0
        redrivePolicy := ⟨dep_arn, 3⟩ } }

/-! ## Queue Registry (spec §4.1) -/

/-- Registry errors (spec §7 taxonomy, restricted to the registry
operations). -/
inductive RegErr where
  | queueNotFoundError
  | invalidPolicyError
  | duplicateQueueError
deriving DecidableEq, Repr

/-- A redrive policy as the registry constructs it (spec §3):
`{targetArn, maxReceiveCount}`; the count is an integer the registry
validates to be ≥ 1. -/
structure RedrivePolicy where
  targetArn : String
  maxReceiveCount : Int
deriving DecidableEq, Repr

/-- Modelled from the spec: the Queue Registry (§4.1), absent from `src/`
(the script keeps no name → handle/ARN bookkeeping).  Logical-name keyed
maps to remote handles, ARNs, and attached redrive policies. -/
structure Registry where
  entries : List (String × String × String)
  policies : List (String × RedrivePolicy)
deriving DecidableEq, Repr

/-- Modelled from the spec: `resolveArn(name) -> ARN` (§4.1), fails with
`QueueNotFoundError` if `name` is unresolved in the registry. -/
def resolveArn (r : Registry) (name : String) : Except RegErr String :=
  match r.entries.find? (fun e => e.1 == name) with
  | some e => .ok e.2.2
  | none => .error .queueNotFoundError

/-- Modelled from the spec: `register(name, handle)` (§4.1), inserts or
fails with `DuplicateQueueError` if `name` is already registered with a
different handle.  The ARN is derived from the handle by the transport; here
it is passed alongside. -/
def register (r : Registry) (name handle arn : String) :
    Except RegErr Registry :=
  match r.entries.find? (fun e => e.1 == name) with
  | some e => if e.2.1 == handle then .ok r else .error .duplicateQueueError
  | none => .ok { r with entries := r.entries ++ [(name, handle, arn)] }

/-- Modelled from the spec:
`attachRedrivePolicy(name, targetName, maxReceiveCount)` (§4.1): resolves
`targetName`'s ARN via `resolveArn`, constructs the policy, and fails with
`InvalidPolicyError` if `maxReceiveCount < 1`. -/
def attachRedrivePolicy (r : Registry) (name targetName : String)
    (maxReceiveCount : Int) : Except RegErr Registry :=
  match resolveArn r targetName with
  | .error e => .error e
  | .ok arn =>
    if maxReceiveCount < 1 then .error .invalidPolicyError
    else .ok { r with
      policies := (name, ⟨arn, maxReceiveCount⟩) ::
        r.policies.filter (fun p => !(p.1 == name)) }

/-! ## Batch send (spec §4.2 `sendBatch`, src `send_batch_messages`) -/

/-- One entry of a batch: the producer-assigned id used for per-entry result
correlation, and whether the entry is well-formed (a malformed entry is one
the backend rejects individually). -/
structure BatchEntry where
  id : String
  wellFormed : Bool
deriving DecidableEq, Repr

/-- Whole-batch errors: only a batch of invalid size (outside 1..10) is
rejected as a whole. -/
inductive BatchErr where
  | invalidBatchSize
deriving DecidableEq, Repr

/-- Per-entry results of a batch send: ids of successful entries and ids of
failed entries, as the backend's `Successful` / `Failed` lists. -/
structure BatchResult where
  successful : List String
  failed : List String
deriving DecidableEq, Repr

/-- Modelled from the spec: `sendBatch(queue, messages: 1..10)` (§4.2, §6) —
`send_batch_messages` in `src/` forwards to the backend, whose per-entry
semantics the spec records: each entry succeeds or fails independently and
the result reports success/failure per message id; only an invalid batch
size fails the batch as a whole. -/
def sendBatch (entries : List BatchEntry) : Except BatchErr BatchResult :=
  if entries.length < 1 ∨ 10 < entries.length then .error .invalidBatchSize
  else .ok
    { successful := (entries.filter (fun e => e.wellFormed)).map (fun e => e.id)
      failed := (entries.filter (fun e => !e.wellFormed)).map (fun e => e.id) }

/-! ## Message lifecycle (spec §3, §4.2; src `poll_queue`, `process_queue`,
`change_message_visibility_timeout`, message deletion) -/

/-- A message: producer-assigned id and body (spec §3; attributes are opaque
to the lifecycle logic and folded into the body). -/
structure Msg where
  id : String
  body : String
deriving DecidableEq, Repr

/-- An `InFlightMessage` (spec §3): a received message together with its
receipt token and the deadline until which it is invisible.  Receipt tokens
are opaque; they are modelled as the values of a fresh-token counter. -/
structure IFM where
  msg : Msg
  receipt : Nat
  deadline : Nat
deriving DecidableEq, Repr

/-- Lifecycle errors (spec §7): an expired receipt fails distinctly from a
not-found message. -/
inductive LErr where
  | receiptExpiredError
  | messageNotFound
deriving DecidableEq, Repr

/-- Modelled from the spec: the state of one queue as the at-least-once
backend keeps it (§3, §4.2) — the script delegates all of this to the remote
service.  `visible` are deliverable messages in arrival order, `inflight` the
received-but-unacknowledged ones, `nextReceipt` the fresh-receipt counter. -/
structure MQueue where
  visible : List Msg
  inflight : List IFM
  nextReceipt : Nat
deriving DecidableEq, Repr

/-- `send(handle, message)` (spec §6): appends the message to the visible
tail of the queue. -/
def send (q : MQueue) (m : Msg) : MQueue :=
  { q with visible := q.visible ++ [m] }

/-- Expired in-flight messages return to the visible tail (visibility
timeout elapsed, spec §4.2 state machine); the rest stay in flight. -/
def requeueExpired (q : MQueue) (now : Nat) : MQueue :=
  { q with
    visible := q.visible ++
      (q.inflight.filter (fun e => e.deadline ≤ now)).map (fun e => e.msg)
    inflight := q.inflight.filter (fun e => !(e.deadline ≤ now : Bool)) }

/-- Fresh receipts for a batch of just-received messages: consecutive values
of the counter, all with the same deadline. -/
def assignReceipts (msgs : List Msg) (k dl : Nat) : List IFM :=
  match msgs with
  | [] => []
  | m :: rest => ⟨m, k, dl⟩ :: assignReceipts rest (k + 1) dl

/-- Modelled from the spec: `receive(handle, maxCount)` (§6, §4.2): returns
up to `maxCount` visible messages as in-flight messages with fresh receipts
and deadline `now + vt` (`vt` the visibility timeout), after redelivering
expired in-flight messages. -/
def receive (q : MQueue) (now maxCount vt : Nat) : List IFM × MQueue :=
  let q1 := requeueExpired q now
  let taken := q1.visible.take maxCount
  let newIf := assignReceipts taken q1.nextReceipt (now + vt)
  (newIf,
    { visible := q1.visible.drop maxCount
      inflight := q1.inflight ++ newIf
      nextReceipt := q1.nextReceipt + taken.length })

/-- Modelled from the spec: `deleteMessage(handle, receipt)` (§6): removes
the in-flight message the receipt names; an expired receipt fails with
`ReceiptExpiredError`, an unknown one with the distinct not-found error
(§3 invariants). -/
def deleteMessage (q : MQueue) (r : Nat) (now : Nat) : Except LErr MQueue :=
  match q.inflight.find? (fun e => e.receipt == r) with
  | none => .error .messageNotFound
  | some e =>
    if e.deadline ≤ now then .error .receiptExpiredError
    else .ok { q with inflight := q.inflight.filter (fun e2 => !(e2.receipt == r)) }

/-- Modelled from the spec: `extendVisibility(receipt, seconds)` (§4.2) —
`change_message_visibility_timeout` in `src/` forwards to the backend's
`change_message_visibility`, whose semantics the spec records: after expiry
it fails with `ReceiptExpiredError`; before expiry it replaces the deadline
with `now + seconds` (it does not stack); an unknown receipt fails with the
distinct not-found error. -/
def extendVisibility (q : MQueue) (r : Nat) (seconds now : Nat) :
    Except LErr MQueue :=
  match q.inflight.find? (fun e => e.receipt == r) with
  | none => .error .messageNotFound
  | some e =>
    if e.deadline ≤ now then .error .receiptExpiredError
    else .ok { q with
      inflight := q.inflight.map
        (fun e2 => if e2.receipt == r then { e2 with deadline := now + seconds } else e2) }

/-- `poll_queue(client, url, max_messages=10)` from the source: one
`receive_message` call with `MaxNumberOfMessages=max_messages`. -/
def poll_queue (q : MQueue) (now vt : Nat) (max_messages : Nat := 10) :
    List IFM × MQueue :=
  receive q now max_messages vt

/-- `process_queue(client, url)` from the source: polls once (up to 10
messages) and, for each received message, runs the processing step (the
`print` in the source, whose outcome is discarded) and then calls
`delete_message_from_queue` on its receipt unconditionally.  The processing
step is the `proc` parameter so that the claim about caller-supplied
processing can be stated; the source hardcodes it to printing and ignores
its result exactly as the fold below does. -/
def process_queue (proc : Msg → Bool) (q : MQueue) (now vt : Nat) : MQueue :=
  let polled := poll_queue q now vt
  polled.1.foldl
    (fun st e =>
      let _ := proc e.msg
      match deleteMessage st e.receipt now with
      | .ok st2 => st2
      | .error _ => st)
    polled.2

/-- The deletion loop inside `process_queue`, separated out: delete each
received message's receipt in turn (a deletion error would propagate in
Python; it cannot occur on the fresh receipts `process_queue` uses, and the
state is kept when it would). -/
def foldDeletes (l : List IFM) (st : MQueue) (now : Nat) : MQueue :=
  l.foldl
    (fun st2 e =>
      match deleteMessage st2 e.receipt now with
      | .ok st3 => st3
      | .error _ => st2)
    st

/-- A consumer-side operation on a queue: one `receive`, one `deleteMessage`
or one `extendVisibility` call (no re-send). -/
inductive QOp where
  | recv (now maxCount vt : Nat)
  | del (r : Nat) (now : Nat)
  | ext (r : Nat) (s now : Nat)
deriving DecidableEq, Repr

/-- The queue state after one consumer-side operation (a failing delete or
extend leaves the state as is). -/
def applyOp (q : MQueue) : QOp → MQueue
  | .recv now c vt => (receive q now c vt).2
  | .del r now =>
    match deleteMessage q r now with
    | .ok q2 => q2
    | .error _ => q
  | .ext r s now =>
    match extendVisibility q r s now with
    | .ok q2 => q2
    | .error _ => q

/-- All messages returned by the `receive` calls of an operation sequence
run from `q`. -/
def receivedAlong (q : MQueue) : List QOp → List Msg
  | [] => []
  | op :: rest =>
    (match op with
     | .recv now c vt => (receive q now c vt).1.map (fun e => e.msg)
     | .del _ _ => []
     | .ext _ _ _ => []) ++ receivedAlong (applyOp q op) rest

/-- Multiset view of a queue's messages: every copy, visible or in flight. -/
def msgsOf (q : MQueue) : List Msg :=
  q.visible ++ q.inflight.map (fun e => e.msg)

/-- How many copies of `m` the queue holds, in either state. -/
def cnt (q : MQueue) (m : Msg) : Nat :=
  (msgsOf q).count m

/-! ## The `__main__` driver's queue-creation sequence -/

/-- The default queue name `QUEUE_NAME`. -/
def QUEUE_NAME : String := "example_queue"

/-- The default FIFO queue name `QUEUE_NAME_FIFO`. -/
def QUEUE_NAME_FIFO : String := "example_fifo_queue.fifo"

/-- The dead-letter queue name `QUEUE_NAME_DEAD`. -/
def QUEUE_NAME_DEAD : String := "example_dead_queue"

/-- The URL the backend assigns a queue created under `name`. -/
def urlOf (name : String) : String :=
  "https://sqs.example.amazonaws.com/" ++ name

/-- The ARN the backend assigns a queue created under `name`. -/
def arnOf (name : String) : String :=
  "arn:aws:sqs:example:" ++ name

/-- A queue as the backend tracks it during the driver run: name, URL, ARN,
and the redrive policy it was created with, if any. -/
structure CQueue where
  name : String
  url : String
  arn : String
  policy : Option RedrivePolicyJson
deriving DecidableEq, Repr

/-- The backend's queue collection during the driver run. -/
structure Cloud where
  queues : List CQueue
deriving DecidableEq, Repr

/-- One `create_queue` backend call: returns the existing queue's URL when
the name is taken (the call is idempotent), otherwise registers the queue
with its derived URL and ARN and the given creation-time policy. -/
def create_queue (c : Cloud) (name : String)
    (policy : Option RedrivePolicyJson := none) : String × Cloud :=
  match c.queues.find? (fun q => q.name == name) with
  | some q => (q.url, c)
  | none => (urlOf name, ⟨c.queues ++ [⟨name, urlOf name, arnOf name, policy⟩]⟩)

/-- `sqs_create_queue(client, name)` from the source: `create_queue` under
`QUEUE_NAME` when `name` is `None`. -/
def sqs_create_queue (c : Cloud) (name : Option String) : String × Cloud :=
  create_queue c (name.getD QUEUE_NAME)

/-- `sqs_create_fifo_queue(client, name)` from the source: `create_queue`
under `QUEUE_NAME_FIFO` when `name` is `None` (the `FifoQueue` attribute does
not affect the properties studied here). -/
def sqs_create_fifo_queue (c : Cloud) (name : Option String) : String × Cloud :=
  create_queue c (name.getD QUEUE_NAME_FIFO)

/-- `get_queue_arn(resource, name)` from the source: looks the queue up by
name and reads its `QueueArn` attribute; when the queue does not exist the
lookup raises (the source's TODO notes this path is unguarded). -/
def get_queue_arn (c : Cloud) (name : String) : Except BErr String :=
  match c.queues.find? (fun q => q.name == name) with
  | some q => .ok q.arn
  | none => .error .queueDoesNotExist

/-- Running `sqs_create_queue_dead_dependency` against the backend: creates
the queue under the redrive policy that function constructs. -/
def run_create_dead_dependency (c : Cloud) (dep_arn : String)
    (name : Option String) : String × Cloud :=
  create_queue c (name.getD QUEUE_MAIN)
    (some (sqs_create_queue_dead_dependency dep_arn name).attrs.redrivePolicy)

/-- The backend state after the driver's first three creations
(`example_queue`, the FIFO queue, `example_dead_queue`) — the state in which
`get_queue_arn` is evaluated, before `sqs_create_queue_dead_dependency` is
called (Python evaluates the `dep_arn=` argument first). -/
def script_state3 : Cloud :=
  let s1 := (sqs_create_queue ⟨[]⟩ none).2
  let s2 := (sqs_create_fifo_queue s1 none).2
  (sqs_create_queue s2 (some QUEUE_NAME_DEAD)).2

/-- The `__main__` queue-creation sequence: three plain creations, then the
dead-letter ARN lookup, then the dependent queue's creation with the policy
built from that ARN. -/
def mainScript : Except BErr Cloud := do
  let arn ← get_queue_arn script_state3 QUEUE_NAME_DEAD
  pure (run_create_dead_dependency script_state3 arn (some QUEUE_MAIN)).2

/-! ## Helper lemmas -/

/-- `delete_loop` on URLs that all exist and are pairwise distinct: every
deletion succeeds, the results accumulate in order, and one backend call is
made per URL. -/
theorem delete_loop_all_ok (us : List Url) : ∀ (b : Backend)
    (acc : List (Url × Resp)) (calls : Nat),
    (∀ v ∈ us, v ∈ b.queues) → us.Nodup →
    delete_loop b us acc calls =
      (.ok (.dict (acc ++ us.map (fun v => (v, ⟨true⟩)))),
       ⟨us.foldl (fun l v => l.erase v) b.queues⟩, calls + us.length) := by
  induction us with
  | nil => intro b acc calls _ _; simp [delete_loop]
  | cons u rest ih =>
    intro b acc calls hmem hnd
    have hu : u ∈ b.queues := hmem u (List.mem_cons_self u rest)
    have hrest : ∀ v ∈ rest, v ∈ (b.queues.erase u) := by
      intro v hv
      have hne : v ≠ u := by
        intro h
        exact (List.nodup_cons.mp hnd).1 (h ▸ hv)
      exact (List.mem_erase_of_ne hne).mpr (hmem v (List.mem_cons_of_mem u hv))
    simp only [delete_loop, delete_queue, if_pos hu]
    rw [ih ⟨b.queues.erase u⟩ (acc ++ [(u, Resp.mk true)]) (calls + 1) hrest
      (List.nodup_cons.mp hnd).2]
    simp [List.foldl_cons]
    omega

/-- The filtered lengths under a predicate and its negation add up to the
whole list's length. -/
theorem length_filter_add_length_filter_not {α : Type} (p : α → Bool)
    (l : List α) :
    (l.filter p).length + (l.filter (fun a => !p a)).length = l.length := by
  induction l with
  | nil => rfl
  | cons a l ih => cases h : p a <;> simp [List.filter_cons, h] <;> omega

/-! ## Claim theorems -/

/-- C10: `sqs_create_queue_dead_dependency` always builds the redrive policy
with `maxReceiveCount` exactly 3 and always sets the same fixed attributes
(DelaySeconds 0, MaximumMessageSize 262144, VisibilityTimeout 30,
MessageRetentionPeriod 345680, ReceiveMessageWaitTimeSeconds 0), for every
`dep_arn` and `name`; its interface offers the caller no control over them. -/
theorem dead_dependency_attrs_fixed (dep_arn : String) (name : Option String) :
    (sqs_create_queue_dead_dependency dep_arn name).attrs =
      { delaySeconds := 0
        maximumMessageSize := 262144
        visibilityTimeout := 30
        messageRetentionPeriod := 345680
        receiveMessageWaitTimeSeconds := 0
        redrivePolicy := ⟨dep_arn, 3⟩ } ∧
    (sqs_create_queue_dead_dependency dep_arn name).attrs.redrivePolicy.maxReceiveCount = 3 := by
  exact ⟨rfl, rfl⟩

/-- C9: `sqs_delete_queue` dispatches on the argument's runtime type: a
string yields the single backend response of one delete call; a set of URLs
(pairwise distinct, all existing) yields a dictionary mapping each URL to
the response of one delete call per URL; any other argument raises
`TypeError` with zero backend calls and the backend untouched. -/
theorem sqs_delete_queue_dispatch (b : Backend) (u : Url) (us : List Url)
    (hu : u ∈ b.queues) (hmem : ∀ v ∈ us, v ∈ b.queues) (hnd : us.Nodup) :
    sqs_delete_queue b (.str u) = (.ok (.single ⟨true⟩), ⟨b.queues.erase u⟩, 1) ∧
    (sqs_delete_queue b (.set us)).1 =
      .ok (.dict (us.map (fun v => (v, ⟨true⟩)))) ∧
    (sqs_delete_queue b (.set us)).2.2 = us.length ∧
    sqs_delete_queue b .other = (.error .typeError, b, 0) := by
  refine ⟨?_, ?_, ?_, rfl⟩
  · simp [sqs_delete_queue, delete_queue, if_pos hu]
  · simp [sqs_delete_queue, delete_loop_all_ok us b [] 0 hmem hnd]
  · simp [sqs_delete_queue, delete_loop_all_ok us b [] 0 hmem hnd]

/-- Witness for C9 at a concrete backend and argument set. -/
theorem sqs_delete_queue_dispatch_witness :
    ("a" ∈ (Backend.mk ["a", "b", "c"]).queues ∧
      (∀ v ∈ ["b", "c"], v ∈ (Backend.mk ["a", "b", "c"]).queues) ∧
      (["b", "c"] : List Url).Nodup) ∧
    (sqs_delete_queue ⟨["a", "b", "c"]⟩ (.str "a") =
      (.ok (.single ⟨true⟩), ⟨["b", "c"]⟩, 1) ∧
    (sqs_delete_queue ⟨["a", "b", "c"]⟩ (.set ["b", "c"])).1 =
      .ok (.dict [("b", ⟨true⟩), ("c", ⟨true⟩)]) ∧
    (sqs_delete_queue ⟨["a", "b", "c"]⟩ (.set ["b", "c"])).2.2 = 2 ∧
    sqs_delete_queue ⟨["a", "b", "c"]⟩ .other =
      (.error .typeError, ⟨["a", "b", "c"]⟩, 0)) :=
  ⟨⟨by decide, by decide, by decide⟩,
    sqs_delete_queue_dispatch ⟨["a", "b", "c"]⟩ "a" ["b", "c"]
      (by decide) (by decide) (by decide)⟩

/-- C2: `attachRedrivePolicy` fails if and only if the target queue's ARN is
unresolvable (and then with `QueueNotFoundError`) or `maxReceiveCount < 1`
(and then with `InvalidPolicyError`); in every other case the policy
`{targetArn, maxReceiveCount}` is constructed and attached under `name`. -/
theorem attachRedrivePolicy_fails_iff (r : Registry) (name targetName : String)
    (c : Int) :
    (attachRedrivePolicy r name targetName c = .error .queueNotFoundError ↔
      resolveArn r targetName = .error .queueNotFoundError) ∧
    (attachRedrivePolicy r name targetName c = .error .invalidPolicyError ↔
      ((∃ arn, resolveArn r targetName = .ok arn) ∧ c < 1)) ∧
    (∀ arn, resolveArn r targetName = .ok arn → ¬ c < 1 →
      attachRedrivePolicy r name targetName c =
        .ok { r with policies := (name, ⟨arn, c⟩) ::
          r.policies.filter (fun p => !(p.1 == name)) }) := by
  have herr : ∀ e, resolveArn r targetName = .error e → e = .queueNotFoundError := by
    intro e he
    unfold resolveArn at he
    cases h : r.entries.find? (fun x => x.1 == targetName) with
    | none => simp [h] at he; exact he.symm
    | some x => simp [h] at he
  refine ⟨?_, ?_, ?_⟩
  · cases h : resolveArn r targetName with
    | error e =>
      have := herr e h
      subst this
      simp [attachRedrivePolicy, h]
    | ok arn =>
      simp only [attachRedrivePolicy, h]
      constructor
      · intro hc
        split at hc <;> simp_all
      · intro hc
        simp at hc
  · cases h : resolveArn r targetName with
    | error e =>
      have := herr e h
      subst this
      simp [attachRedrivePolicy, h]
    | ok arn =>
      simp only [attachRedrivePolicy, h]
      constructor
      · intro hc
        split at hc
        · exact ⟨⟨arn, rfl⟩, by assumption⟩
        · simp at hc
      · rintro ⟨-, hc⟩
        simp [if_pos hc]
  · intro arn harn hc
    simp [attachRedrivePolicy, harn, if_neg hc]

/-- Witness for C2: a registry holding the target queue, a valid and an
invalid count, and an unknown target. -/
theorem attachRedrivePolicy_fails_iff_witness :
    ((attachRedrivePolicy ⟨[("dead", "h1", "arn-dead")], []⟩ "main" "dead" 3 =
        .ok ⟨[("dead", "h1", "arn-dead")], [("main", ⟨"arn-dead", 3⟩)]⟩) ∧
      attachRedrivePolicy ⟨[("dead", "h1", "arn-dead")], []⟩ "main" "dead" 0 =
        .error .invalidPolicyError ∧
      attachRedrivePolicy ⟨[("dead", "h1", "arn-dead")], []⟩ "main" "ghost" 3 =
        .error .queueNotFoundError) ∧
    (resolveArn ⟨[("dead", "h1", "arn-dead")], []⟩ "dead" = .ok "arn-dead" ∧
      ¬ (3 : Int) < 1) := by
  constructor
  · refine ⟨?_, by rfl, by rfl⟩
    have h := (attachRedrivePolicy_fails_iff ⟨[("dead", "h1", "arn-dead")], []⟩
      "main" "dead" 3).2.2 "arn-dead" (by rfl) (by decide)
    simpa using h
  · exact ⟨by rfl, by decide⟩

/-- C3: for a batch of `N` messages, `1 ≤ N ≤ 10`, in which exactly one
entry is malformed, `sendBatch` succeeds as a whole and reports `N − 1`
per-entry successes and exactly 1 per-entry failure, keyed by the malformed
entry's message id. -/
theorem sendBatch_partial_failure (entries : List BatchEntry)
    (h1 : 1 ≤ entries.length) (h10 : entries.length ≤ 10)
    (hone : (entries.filter (fun e => !e.wellFormed)).length = 1) :
    ∃ res, sendBatch entries = .ok res ∧
      res.successful.length = entries.length - 1 ∧
      res.failed.length = 1 ∧
      ∀ e ∈ entries, e.wellFormed = false → res.failed = [e.id] := by
  have hsz : ¬(entries.length < 1 ∨ 10 < entries.length) := by omega
  have hok : sendBatch entries = .ok
      ⟨(entries.filter (fun e => e.wellFormed)).map (fun e => e.id),
       (entries.filter (fun e => !e.wellFormed)).map (fun e => e.id)⟩ := by
    unfold sendBatch
    rw [if_neg hsz]
  have hsplit := length_filter_add_length_filter_not
    (fun e : BatchEntry => e.wellFormed) entries
  refine ⟨_, hok, ?_, ?_, ?_⟩
  · simp only [List.length_map]
    omega
  · simp only [List.length_map]
    exact hone
  · intro e he hwf
    obtain ⟨a, ha⟩ := List.length_eq_one.mp hone
    have hea : e = a := by
      have : e ∈ entries.filter (fun x => !x.wellFormed) := by
        simp [List.mem_filter, he, hwf]
      rw [ha] at this
      simpa using this
    simp [ha, hea]

/-- Witness for C3: a batch of three entries of which the middle one is
malformed. -/
theorem sendBatch_partial_failure_witness :
    ((1 ≤ ([⟨"i1", true⟩, ⟨"i2", false⟩, ⟨"i3", true⟩] : List BatchEntry).length) ∧
      (([⟨"i1", true⟩, ⟨"i2", false⟩, ⟨"i3", true⟩] : List BatchEntry).length ≤ 10) ∧
      (([⟨"i1", true⟩, ⟨"i2", false⟩, ⟨"i3", true⟩] :
        List BatchEntry).filter (fun e => !e.wellFormed)).length = 1) ∧
    (∃ res, sendBatch [⟨"i1", true⟩, ⟨"i2", false⟩, ⟨"i3", true⟩] = .ok res ∧
      res.successful.length = 3 - 1 ∧
      res.failed.length = 1 ∧
      ∀ e ∈ ([⟨"i1", true⟩, ⟨"i2", false⟩, ⟨"i3", true⟩] : List BatchEntry),
        e.wellFormed = false → res.failed = [e.id]) :=
  ⟨⟨by decide, by decide, by decide⟩,
    sendBatch_partial_failure [⟨"i1", true⟩, ⟨"i2", false⟩, ⟨"i3", true⟩]
      (by decide) (by decide) (by decide)⟩

/-- Finding an entry under a receipt after a deadline update of that receipt
finds the deadline-updated entry. -/
theorem find?_receipt_map_update (l : List IFM) (r d : Nat) :
    (l.map (fun e2 => if e2.receipt == r then { e2 with deadline := d } else e2)).find?
      (fun x => x.receipt == r) =
    (l.find? (fun x => x.receipt == r)).map (fun e => { e with deadline := d }) := by
  induction l with
  | nil => rfl
  | cons a l ih =>
    cases h : (a.receipt == r) with
    | false =>
      have hne : a.receipt ≠ r := by simpa using h
      simp only [List.map_cons, List.find?_cons, if_neg hne, h, ih]
      simp [h]
    | true =>
      have heq : a.receipt = r := by simpa using h
      simp only [List.map_cons, List.find?_cons, if_pos heq, h]
      simp [heq]

/-- A deadline update keeps the number of in-flight entries under a receipt
unchanged. -/
theorem countP_receipt_map_update (l : List IFM) (r d : Nat) :
    (l.map (fun e2 => if e2.receipt == r then { e2 with deadline := d } else e2)).countP
      (fun x => x.receipt == r) =
    l.countP (fun x => x.receipt == r) := by
  rw [List.countP_map]
  apply List.countP_congr
  intro e2 _
  cases h : (e2.receipt == r) <;> simp [Function.comp, h]

/-- C7: in the driver, the dead-letter queue is created before the dependent
queue: `get_queue_arn` succeeds only for a queue already present in the
backend, and the `__main__` sequence resolves `example_dead_queue`'s ARN from
the state holding it before `main_queue`'s redrive policy is constructed, so
`main_queue` ends up with a policy targeting the ARN of the already-existing
dead-letter queue. -/
theorem redrive_target_created_first :
    (∀ (c : Cloud) (n a : String), get_queue_arn c n = .ok a →
      ∃ q ∈ c.queues, q.name = n ∧ q.arn = a) ∧
    (∃ dq ∈ script_state3.queues, dq.name = QUEUE_NAME_DEAD ∧
      ∃ final, mainScript = .ok final ∧
        ∃ mq ∈ final.queues, mq.name = QUEUE_MAIN ∧
          mq.policy = some ⟨dq.arn, 3⟩) := by
  constructor
  · intro c n a h
    unfold get_queue_arn at h
    cases hf : c.queues.find? (fun q => q.name == n) with
    | none => rw [hf] at h; cases h
    | some q =>
      rw [hf] at h
      cases h
      refine ⟨q, List.mem_of_find?_eq_some hf, ?_, rfl⟩
      have := List.find?_some hf
      simpa using this
  · refine ⟨⟨QUEUE_NAME_DEAD, urlOf QUEUE_NAME_DEAD, arnOf QUEUE_NAME_DEAD, none⟩,
      by decide, rfl,
      (run_create_dead_dependency script_state3 (arnOf QUEUE_NAME_DEAD)
        (some QUEUE_MAIN)).2, rfl,
      ⟨QUEUE_MAIN, urlOf QUEUE_MAIN, arnOf QUEUE_MAIN,
        some ⟨arnOf QUEUE_NAME_DEAD, 3⟩⟩, by decide, rfl, rfl⟩

/-- Witness for C7's resolution-implies-existence part at the driver's own
lookup. -/
theorem redrive_target_created_first_witness :
    get_queue_arn script_state3 QUEUE_NAME_DEAD = .ok (arnOf QUEUE_NAME_DEAD) ∧
    ∃ q ∈ script_state3.queues, q.name = QUEUE_NAME_DEAD ∧
      q.arn = arnOf QUEUE_NAME_DEAD :=
  ⟨rfl, redrive_target_created_first.1 script_state3 QUEUE_NAME_DEAD
    (arnOf QUEUE_NAME_DEAD) rfl⟩

/-- C5: for a receipt whose visibility deadline has passed,
`extendVisibility` fails with `ReceiptExpiredError`, and that failure is
distinct from the not-found failure raised for a receipt naming no in-flight
message. -/
theorem extendVisibility_expired_distinct (q : MQueue) (r s now : Nat) :
    (∀ e, q.inflight.find? (fun x => x.receipt == r) = some e → e.deadline ≤ now →
      extendVisibility q r s now = .error .receiptExpiredError) ∧
    (q.inflight.find? (fun x => x.receipt == r) = none →
      extendVisibility q r s now = .error .messageNotFound) ∧
    LErr.receiptExpiredError ≠ LErr.messageNotFound := by
  refine ⟨?_, ?_, by decide⟩
  · intro e hf hd
    unfold extendVisibility
    rw [hf]
    simp [hd]
  · intro hf
    unfold extendVisibility
    rw [hf]

/-- Witness for C5: an in-flight message whose deadline 5 has passed at time
10, and a receipt that names no message. -/
theorem extendVisibility_expired_distinct_witness :
    ((MQueue.mk [] [⟨⟨"m", "b"⟩, 0, 5⟩] 1).inflight.find?
        (fun x => x.receipt == 0) = some ⟨⟨"m", "b"⟩, 0, 5⟩ ∧
      (5 : Nat) ≤ 10 ∧
      (MQueue.mk [] [⟨⟨"m", "b"⟩, 0, 5⟩] 1).inflight.find?
        (fun x => x.receipt == 99) = none) ∧
    extendVisibility ⟨[], [⟨⟨"m", "b"⟩, 0, 5⟩], 1⟩ 0 30 10 =
      .error .receiptExpiredError ∧
    extendVisibility ⟨[], [⟨⟨"m", "b"⟩, 0, 5⟩], 1⟩ 99 30 10 =
      .error .messageNotFound :=
  ⟨⟨by decide, by decide, by decide⟩,
    (extendVisibility_expired_distinct ⟨[], [⟨⟨"m", "b"⟩, 0, 5⟩], 1⟩ 0 30 10).1
      ⟨⟨"m", "b"⟩, 0, 5⟩ (by decide) (by decide),
    (extendVisibility_expired_distinct ⟨[], [⟨⟨"m", "b"⟩, 0, 5⟩], 1⟩ 99 30 10).2.1
      (by decide)⟩

/-- C4: before expiry, `extendVisibility` replaces the deadline with the new
value measured from the call's invocation time: extending with `s1` at `t1`
and then with `s2` at `t2` (before the first window expires) leaves the
deadline at `t2 + s2` — not `t1 + s1 + s2` — and the receipt still names
exactly as many in-flight entries as before (one visibility window at all
times). -/
theorem extendVisibility_replaces_deadline (q : MQueue) (r s1 s2 t1 t2 : Nat)
    (e : IFM)
    (hfind : q.inflight.find? (fun x => x.receipt == r) = some e)
    (h1 : t1 < e.deadline) (h2 : t2 < t1 + s1) :
    ∃ q1 q2, extendVisibility q r s1 t1 = .ok q1 ∧
      extendVisibility q1 r s2 t2 = .ok q2 ∧
      q2.inflight.find? (fun x => x.receipt == r) =
        some { e with deadline := t2 + s2 } ∧
      q2.inflight.countP (fun x => x.receipt == r) =
        q.inflight.countP (fun x => x.receipt == r) := by
  have hnot1 : ¬ e.deadline ≤ t1 := by omega
  have hnot2 : ¬ t1 + s1 ≤ t2 := by omega
  have hq1 : extendVisibility q r s1 t1 = .ok { q with inflight := q.inflight.map (fun e2 => if e2.receipt == r then { e2 with deadline := t1 + s1 } else e2) } := by
    unfold extendVisibility
    rw [hfind]
    simp [hnot1]
  have hfind1 : (q.inflight.map (fun e2 => if e2.receipt == r then { e2 with deadline := t1 + s1 } else e2)).find? (fun x => x.receipt == r) = some { e with deadline := t1 + s1 } := by
    rw [find?_receipt_map_update, hfind]
    rfl
  have hq2 : extendVisibility { q with inflight := q.inflight.map (fun e2 => if e2.receipt == r then { e2 with deadline := t1 + s1 } else e2) } r s2 t2 = .ok { q with inflight := (q.inflight.map (fun e2 => if e2.receipt == r then { e2 with deadline := t1 + s1 } else e2)).map (fun e2 => if e2.receipt == r then { e2 with deadline := t2 + s2 } else e2) } := by
    unfold extendVisibility
    dsimp only
    rw [hfind1]
    simp [hnot2]
  have hfind2 : ((q.inflight.map (fun e2 => if e2.receipt == r then { e2 with deadline := t1 + s1 } else e2)).map (fun e2 => if e2.receipt == r then { e2 with deadline := t2 + s2 } else e2)).find? (fun x => x.receipt == r) = some { e with deadline := t2 + s2 } := by
    rw [find?_receipt_map_update, hfind1]
    rfl
  have hcnt : ((q.inflight.map (fun e2 => if e2.receipt == r then { e2 with deadline := t1 + s1 } else e2)).map (fun e2 => if e2.receipt == r then { e2 with deadline := t2 + s2 } else e2)).countP (fun x => x.receipt == r) = q.inflight.countP (fun x => x.receipt == r) := by
    rw [countP_receipt_map_update, countP_receipt_map_update]
  exact ⟨_, _, hq1, hq2, hfind2, hcnt⟩

/-- Witness for C4: the spec's 5-seconds-then-20-seconds scenario: extend at
time 0 by 5, then at time 3 by 20; the deadline becomes 23 = 3 + 20, not
3 + 25. -/
theorem extendVisibility_replaces_deadline_witness :
    ((MQueue.mk [] [⟨⟨"m", "b"⟩, 0, 30⟩] 1).inflight.find?
        (fun x => x.receipt == 0) = some ⟨⟨"m", "b"⟩, 0, 30⟩ ∧
      (0 : Nat) < 30 ∧ (3 : Nat) < 0 + 5) ∧
    (∃ q1 q2, extendVisibility ⟨[], [⟨⟨"m", "b"⟩, 0, 30⟩], 1⟩ 0 5 0 = .ok q1 ∧
      extendVisibility q1 0 20 3 = .ok q2 ∧
      q2.inflight.find? (fun x => x.receipt == 0) =
        some ⟨⟨"m", "b"⟩, 0, 3 + 20⟩ ∧
      q2.inflight.countP (fun x => x.receipt == 0) =
        (MQueue.mk [] [⟨⟨"m", "b"⟩, 0, 30⟩] 1).inflight.countP
          (fun x => x.receipt == 0)) ∧
    (3 + 20 : Nat) ≠ 3 + 25 :=
  ⟨⟨by decide, by decide, by decide⟩,
    extendVisibility_replaces_deadline ⟨[], [⟨⟨"m", "b"⟩, 0, 30⟩], 1⟩ 0 5 20 0 3
      ⟨⟨"m", "b"⟩, 0, 30⟩ (by decide) (by decide) (by decide),
    by decide⟩

/-- C6 fails on the code: deleting the set `{"a", "b"}` against a backend
holding only queue `"a"` raises the backend's nonexistent-queue error for
`"b"`, yet queue `"a"` is already gone — the failed call did not leave the
state as it was (observable partial mutation). -/
theorem delete_set_partial_mutation_counterexample :
    (sqs_delete_queue ⟨["a"]⟩ (.set ["a", "b"])).1 =
      .error (.backend .queueDoesNotExist) ∧
    (sqs_delete_queue ⟨["a"]⟩ (.set ["a", "b"])).2.1 ≠ ⟨["a"]⟩ :=
  ⟨rfl, by decide⟩

/-- C6 (amended): a failing single-URL deletion and the `TypeError` path of
`sqs_delete_queue` leave the backend state exactly as it was (and the
`TypeError` path makes no backend call); only the set-URL path deletes queue
by queue, so its failure can leave earlier deletions in place. -/
theorem delete_queue_no_partial_mutation_single (b : Backend) (u : Url) :
    (∀ e, (sqs_delete_queue b (.str u)).1 = .error e →
      (sqs_delete_queue b (.str u)).2.1 = b) ∧
    (sqs_delete_queue b .other).1 = .error .typeError ∧
    (sqs_delete_queue b .other).2.1 = b ∧
    (sqs_delete_queue b .other).2.2 = 0 := by
  refine ⟨?_, rfl, rfl, rfl⟩
  intro e he
  have hred : sqs_delete_queue b (.str u) =
      (match delete_queue b u with
       | .ok (r, b') => (.ok (.single r), b', 1)
       | .error e2 => (.error (.backend e2), b, 1)) := rfl
  rw [hred] at he ⊢
  cases h : delete_queue b u with
  | ok p =>
    obtain ⟨r, b'⟩ := p
    rw [h] at he
    cases he
  | error e2 => rfl

/-- Witness for C6's amended statement: a deletion of a nonexistent queue
URL fails and leaves the one-queue backend untouched. -/
theorem delete_queue_no_partial_mutation_single_witness :
    (sqs_delete_queue ⟨["a"]⟩ (.str "ghost")).1 =
      .error (.backend .queueDoesNotExist) ∧
    (sqs_delete_queue ⟨["a"]⟩ (.str "ghost")).2.1 = ⟨["a"]⟩ ∧
    (sqs_delete_queue ⟨["a"]⟩ .other).2.2 = 0 :=
  ⟨rfl,
    (delete_queue_no_partial_mutation_single ⟨["a"]⟩ "ghost").1
      (.backend .queueDoesNotExist) rfl,
    (delete_queue_no_partial_mutation_single ⟨["a"]⟩ "ghost").2.2.2⟩

/-- Fresh receipts carry the message list unchanged. -/
theorem assignReceipts_map_msg (msgs : List Msg) : ∀ (k dl : Nat),
    (assignReceipts msgs k dl).map (fun e => e.msg) = msgs := by
  induction msgs with
  | nil => intro k dl; rfl
  | cons m rest ih => intro k dl; simp [assignReceipts, ih]

/-- Every receipt assigned from counter value `k` on is at least `k`. -/
theorem assignReceipts_receipt_ge (msgs : List Msg) : ∀ (k dl : Nat),
    ∀ e ∈ assignReceipts msgs k dl, k ≤ e.receipt := by
  induction msgs with
  | nil =>
    intro k dl e he
    cases he
  | cons m rest ih =>
    intro k dl e he
    rcases List.mem_cons.mp he with h | h
    · subst h; exact Nat.le_refl k
    · exact Nat.le_of_succ_le (ih (k + 1) dl e h)

/-- `process_queue` is the deletion loop over one poll: the processing step's
result is discarded by the source, so it does not appear in the loop. -/
theorem process_queue_eq_foldDeletes (proc : Msg → Bool) (q : MQueue)
    (now vt : Nat) :
    process_queue proc q now vt =
      foldDeletes (poll_queue q now vt).1 (poll_queue q now vt).2 now := rfl

/-- Deleting each freshly assigned receipt in turn empties the in-flight list
and touches nothing else, as long as the visibility window is positive. -/
theorem foldDeletes_assignReceipts (msgs : List Msg) : ∀ (k : Nat)
    (vis : List Msg) (nr now vt : Nat), 0 < vt →
    foldDeletes (assignReceipts msgs k (now + vt))
      ⟨vis, assignReceipts msgs k (now + vt), nr⟩ now = ⟨vis, [], nr⟩ := by
  induction msgs with
  | nil => intro k vis nr now vt h; rfl
  | cons m rest ih =>
    intro k vis nr now vt h
    have hfind : (assignReceipts (m :: rest) k (now + vt)).find?
        (fun e2 => e2.receipt == k) = some ⟨m, k, now + vt⟩ := by
      simp [assignReceipts, List.find?_cons]
    have hkeep : ∀ e ∈ assignReceipts rest (k + 1) (now + vt),
        (!(e.receipt == k)) = true := by
      intro e he
      have := assignReceipts_receipt_ge rest (k + 1) (now + vt) e he
      simp
      omega
    have hfilter : (assignReceipts (m :: rest) k (now + vt)).filter
        (fun e2 => !(e2.receipt == k)) = assignReceipts rest (k + 1) (now + vt) := by
      show List.filter _ (⟨m, k, now + vt⟩ :: assignReceipts rest (k + 1) (now + vt)) = _
      rw [List.filter_cons]
      simp only [beq_self_eq_true, Bool.not_true, Bool.false_eq_true, if_false]
      exact List.filter_eq_self.mpr hkeep
    have hstep : deleteMessage ⟨vis, assignReceipts (m :: rest) k (now + vt), nr⟩
        k now = .ok ⟨vis, assignReceipts rest (k + 1) (now + vt), nr⟩ := by
      unfold deleteMessage
      dsimp only
      rw [hfind]
      dsimp only
      rw [if_neg (by omega : ¬ now + vt ≤ now), hfilter]
    have hcons : foldDeletes (assignReceipts (m :: rest) k (now + vt))
        ⟨vis, assignReceipts (m :: rest) k (now + vt), nr⟩ now =
        foldDeletes (assignReceipts rest (k + 1) (now + vt))
          ⟨vis, assignReceipts rest (k + 1) (now + vt), nr⟩ now := by
      show foldDeletes (⟨m, k, now + vt⟩ :: assignReceipts rest (k + 1) (now + vt)) _ now = _
      unfold foldDeletes
      rw [List.foldl_cons]
      rw [show (match deleteMessage ⟨vis, assignReceipts (m :: rest) k (now + vt), nr⟩ k now with
        | .ok st3 => st3
        | .error _ => MQueue.mk vis (assignReceipts (m :: rest) k (now + vt)) nr) =
        MQueue.mk vis (assignReceipts rest (k + 1) (now + vt)) nr by rw [hstep]]
    rw [hcons]
    exact ih (k + 1) vis nr now vt h

/-- C1 fails on the code: `process_queue` deletes a received message even
when the processing function rejects it.  With one visible message and an
always-failing processing function, the message is received by the poll and
is gone from the queue afterwards, instead of being left in flight. -/
theorem process_queue_failing_proc_counterexample :
    (fun _ : Msg => false) (Msg.mk "m1" "b") = false ∧
    (poll_queue (MQueue.mk [Msg.mk "m1" "b"] [] 0) 0 30).1.map (fun e => e.msg) =
      [Msg.mk "m1" "b"] ∧
    cnt (MQueue.mk [Msg.mk "m1" "b"] [] 0) (Msg.mk "m1" "b") = 1 ∧
    cnt (process_queue (fun _ => false) (MQueue.mk [Msg.mk "m1" "b"] [] 0) 0 30)
      (Msg.mk "m1" "b") = 0 :=
  ⟨rfl, by decide, by decide, by decide⟩

/-- C1 (amended): `process_queue` deletes every received message
unconditionally — its result does not depend on the processing step's
outcome at all, and (for a queue with no prior in-flight messages and a
positive visibility window) the poll's messages are all deleted: no
in-flight message remains and exactly the first ten visible messages are
gone, whether processing succeeded or failed. -/
theorem process_queue_deletes_unconditionally (proc proc2 : Msg → Bool)
    (q : MQueue) (now vt : Nat) (hifl : q.inflight = []) (hvt : 0 < vt) :
    process_queue proc q now vt = process_queue proc2 q now vt ∧
    (process_queue proc q now vt).inflight = [] ∧
    (process_queue proc q now vt).visible = q.visible.drop 10 := by
  have hpoll : poll_queue q now vt =
      (assignReceipts (q.visible.take 10) q.nextReceipt (now + vt),
       ⟨q.visible.drop 10,
        assignReceipts (q.visible.take 10) q.nextReceipt (now + vt),
        q.nextReceipt + (q.visible.take 10).length⟩) := by
    unfold poll_queue receive requeueExpired
    simp [hifl]
  refine ⟨rfl, ?_, ?_⟩
  · rw [process_queue_eq_foldDeletes, hpoll]
    rw [foldDeletes_assignReceipts (q.visible.take 10) q.nextReceipt
      (q.visible.drop 10) (q.nextReceipt + (q.visible.take 10).length) now vt hvt]
  · rw [process_queue_eq_foldDeletes, hpoll]
    rw [foldDeletes_assignReceipts (q.visible.take 10) q.nextReceipt
      (q.visible.drop 10) (q.nextReceipt + (q.visible.take 10).length) now vt hvt]

/-- Witness for C1's amended statement: two opposite processing functions on
a two-message queue give the same final state, with both messages deleted. -/
theorem process_queue_deletes_unconditionally_witness :
    ((MQueue.mk [Msg.mk "m1" "a", Msg.mk "m2" "b"] [] 0).inflight = [] ∧
      (0 : Nat) < 30) ∧
    (process_queue (fun _ => false) (MQueue.mk [Msg.mk "m1" "a", Msg.mk "m2" "b"] [] 0) 0 30 =
      process_queue (fun _ => true) (MQueue.mk [Msg.mk "m1" "a", Msg.mk "m2" "b"] [] 0) 0 30 ∧
    (process_queue (fun _ => false) (MQueue.mk [Msg.mk "m1" "a", Msg.mk "m2" "b"] [] 0) 0 30).inflight = [] ∧
    (process_queue (fun _ => false) (MQueue.mk [Msg.mk "m1" "a", Msg.mk "m2" "b"] [] 0) 0 30).visible =
      (MQueue.mk [Msg.mk "m1" "a", Msg.mk "m2" "b"] [] 0).visible.drop 10) :=
  ⟨⟨rfl, by decide⟩,
    process_queue_deletes_unconditionally (fun _ => false) (fun _ => true)
      (MQueue.mk [Msg.mk "m1" "a", Msg.mk "m2" "b"] [] 0) 0 30 rfl (by decide)⟩

/-- Counting with a conjunct and with its negation splits a `countP`. -/
theorem countP_bool_split {α : Type} (p k : α → Bool) (l : List α) :
    l.countP (fun a => p a && k a) + l.countP (fun a => p a && !k a) =
      l.countP p := by
  induction l with
  | nil => rfl
  | cons a l ih =>
    cases hp : p a <;> cases hk : k a <;>
      simp [List.countP_cons, hp, hk] <;> omega

/-- Mapped counts over a filter partition add up to the mapped count of the
whole list. -/
theorem count_map_filter_split {α β : Type} [DecidableEq β] (f : α → β)
    (p : α → Bool) (l : List α) (x : β) :
    ((l.filter p).map f).count x + ((l.filter (fun a => !p a)).map f).count x =
      (l.map f).count x := by
  rw [List.count_eq_countP, List.count_eq_countP, List.count_eq_countP,
    List.countP_map, List.countP_map, List.countP_map,
    List.countP_filter, List.countP_filter]
  exact countP_bool_split ((fun b => b == x) ∘ f) p l

/-- A queue's copy count of `x` is its visible count plus its in-flight
count. -/
theorem cnt_split (q : MQueue) (x : Msg) :
    cnt q x = q.visible.count x + q.inflight.countP (fun e => e.msg == x) := by
  unfold cnt msgsOf
  rw [List.count_append]
  congr 1
  rw [List.count_eq_countP, List.countP_map]
  rfl

/-- Sending a message adds one copy of it. -/
theorem cnt_send (q : MQueue) (m : Msg) : cnt (send q m) m = cnt q m + 1 := by
  unfold cnt msgsOf send
  dsimp only
  rw [List.count_append, List.count_append, List.count_append]
  have h1 : List.count m [m] = 1 := by simp
  omega

/-- The messages `receive` returns, unfolded. -/
theorem receive_fst (q : MQueue) (now c vt : Nat) :
    (receive q now c vt).1 = assignReceipts ((requeueExpired q now).visible.take c)
      (requeueExpired q now).nextReceipt (now + vt) := rfl

/-- The visible part of the queue after `receive`, unfolded. -/
theorem receive_snd_visible (q : MQueue) (now c vt : Nat) :
    (receive q now c vt).2.visible = (requeueExpired q now).visible.drop c := rfl

/-- The in-flight part of the queue after `receive`, unfolded. -/
theorem receive_snd_inflight (q : MQueue) (now c vt : Nat) :
    (receive q now c vt).2.inflight = (requeueExpired q now).inflight ++
      assignReceipts ((requeueExpired q now).visible.take c)
        (requeueExpired q now).nextReceipt (now + vt) := rfl

/-- Redelivering expired in-flight messages moves copies around but neither
adds nor drops any. -/
theorem cnt_requeueExpired (q : MQueue) (now : Nat) (x : Msg) :
    cnt (requeueExpired q now) x = cnt q x := by
  unfold cnt msgsOf requeueExpired
  dsimp only
  rw [List.count_append, List.count_append, List.count_append]
  have := count_map_filter_split (fun e : IFM => e.msg)
    (fun e => decide (e.deadline ≤ now)) q.inflight x
  omega

/-- `receive` moves copies between visible and in flight but neither adds
nor drops any. -/
theorem cnt_receive (q : MQueue) (now c vt : Nat) (x : Msg) :
    cnt (receive q now c vt).2 x = cnt q x := by
  have h1 : cnt (receive q now c vt).2 x =
      ((requeueExpired q now).visible.drop c).count x +
      (((requeueExpired q now).inflight).map (fun e => e.msg)).count x +
      ((requeueExpired q now).visible.take c).count x := by
    unfold cnt msgsOf
    rw [receive_snd_visible, receive_snd_inflight]
    rw [List.map_append, assignReceipts_map_msg, List.count_append,
      List.count_append]
    omega
  have h2 : ((requeueExpired q now).visible.take c).count x +
      ((requeueExpired q now).visible.drop c).count x =
      (requeueExpired q now).visible.count x := by
    rw [← List.count_append, List.take_append_drop]
  have h3 : cnt (requeueExpired q now) x =
      (requeueExpired q now).visible.count x +
      (((requeueExpired q now).inflight).map (fun e => e.msg)).count x := by
    unfold cnt msgsOf
    rw [List.count_append]
  have h4 := cnt_requeueExpired q now x
  omega

/-- `receive` returns no more copies of a message than the queue holds. -/
theorem receive_returns_count_le (q : MQueue) (now c vt : Nat) (x : Msg) :
    ((receive q now c vt).1.map (fun e => e.msg)).count x ≤ cnt q x := by
  have h0 : (receive q now c vt).1.map (fun e => e.msg) =
      (requeueExpired q now).visible.take c := by
    rw [receive_fst, assignReceipts_map_msg]
  rw [h0]
  have h1 : ((requeueExpired q now).visible.take c).count x ≤
      (requeueExpired q now).visible.count x := by
    rw [List.count_eq_countP, List.count_eq_countP]
    exact (List.take_sublist c _).countP_le _
  have h2 : (requeueExpired q now).visible.count x ≤
      cnt (requeueExpired q now) x := by
    unfold cnt msgsOf
    rw [List.count_append]
    omega
  have h3 := cnt_requeueExpired q now x
  omega

/-- A successful deletion never increases any message's copy count. -/
theorem cnt_deleteMessage_le (q : MQueue) (r now : Nat) (q2 : MQueue)
    (h : deleteMessage q r now = .ok q2) (x : Msg) : cnt q2 x ≤ cnt q x := by
  unfold deleteMessage at h
  cases hf : q.inflight.find? (fun e => e.receipt == r) with
  | none =>
    rw [hf] at h
    exact Except.noConfusion h
  | some e =>
    rw [hf] at h
    dsimp only at h
    by_cases hd : e.deadline ≤ now
    · rw [if_pos hd] at h
      exact Except.noConfusion h
    · rw [if_neg hd] at h
      cases h
      rw [cnt_split, cnt_split]
      dsimp only
      exact Nat.add_le_add_left
        ((List.filter_sublist q.inflight).countP_le (fun e2 => e2.msg == x)) _

/-- A successful visibility extension changes deadlines only: every copy
count is unchanged. -/
theorem cnt_extendVisibility (q : MQueue) (r s now : Nat) (q2 : MQueue)
    (h : extendVisibility q r s now = .ok q2) (x : Msg) : cnt q2 x = cnt q x := by
  unfold extendVisibility at h
  cases hf : q.inflight.find? (fun e => e.receipt == r) with
  | none =>
    rw [hf] at h
    exact Except.noConfusion h
  | some e =>
    rw [hf] at h
    dsimp only at h
    by_cases hd : e.deadline ≤ now
    · rw [if_pos hd] at h
      exact Except.noConfusion h
    · rw [if_neg hd] at h
      cases h
      rw [cnt_split, cnt_split]
      dsimp only
      congr 1
      rw [List.countP_map]
      apply List.countP_congr
      intro e2 _
      cases hc : (e2.receipt == r) with
      | false =>
        have hne : e2.receipt ≠ r := by simpa using hc
        simp [hc, hne]
      | true =>
        have heq : e2.receipt = r := by simpa using hc
        simp [hc, heq]

/-- Consumer-side operations cannot produce a copy of a message the queue
does not hold. -/
theorem cnt_applyOp_zero (q : MQueue) (op : QOp) (m : Msg) (h : cnt q m = 0) :
    cnt (applyOp q op) m = 0 := by
  cases op with
  | recv now c vt =>
    have hred : applyOp q (QOp.recv now c vt) = (receive q now c vt).2 := rfl
    rw [hred, cnt_receive]
    exact h
  | del r now =>
    have hred : applyOp q (QOp.del r now) =
        (match deleteMessage q r now with
         | .ok q2 => q2
         | .error _ => q) := rfl
    rw [hred]
    cases hd : deleteMessage q r now with
    | ok q2 =>
      have := cnt_deleteMessage_le q r now q2 hd m
      dsimp only
      omega
    | error e => exact h
  | ext r s now =>
    have hred : applyOp q (QOp.ext r s now) =
        (match extendVisibility q r s now with
         | .ok q2 => q2
         | .error _ => q) := rfl
    rw [hred]
    cases hd : extendVisibility q r s now with
    | ok q2 =>
      have := cnt_extendVisibility q r s now q2 hd m
      dsimp only
      omega
    | error e => exact h

/-- A message with no copy in the queue is never returned by any sequence of
consumer-side operations. -/
theorem receivedAlong_not_mem (ops : List QOp) : ∀ (q : MQueue) (m : Msg),
    cnt q m = 0 → m ∉ receivedAlong q ops := by
  induction ops with
  | nil =>
    intro q m _ hmem
    cases hmem
  | cons op rest ih =>
    intro q m h hmem
    cases op with
    | recv now c vt =>
      rw [show receivedAlong q (QOp.recv now c vt :: rest) =
          (receive q now c vt).1.map (fun e => e.msg) ++
            receivedAlong (applyOp q (QOp.recv now c vt)) rest from rfl] at hmem
      rcases List.mem_append.mp hmem with hmem | hmem
      · have hle := receive_returns_count_le q now c vt m
        have hz : ((receive q now c vt).1.map (fun e => e.msg)).count m = 0 := by
          omega
        exact (List.count_eq_zero.mp hz) hmem
      · exact ih (applyOp q (QOp.recv now c vt)) m
          (cnt_applyOp_zero q (QOp.recv now c vt) m h) hmem
    | del r now =>
      rw [show receivedAlong q (QOp.del r now :: rest) =
          [] ++ receivedAlong (applyOp q (QOp.del r now)) rest from rfl,
        List.nil_append] at hmem
      exact ih (applyOp q (QOp.del r now)) m
        (cnt_applyOp_zero q (QOp.del r now) m h) hmem
    | ext r s now =>
      rw [show receivedAlong q (QOp.ext r s now :: rest) =
          [] ++ receivedAlong (applyOp q (QOp.ext r s now)) rest from rfl,
        List.nil_append] at hmem
      exact ih (applyOp q (QOp.ext r s now)) m
        (cnt_applyOp_zero q (QOp.ext r s now) m h) hmem

/-- C8: a message not previously in the queue that is sent, then received
(as the in-flight entry `e`), then deleted using that delivery's receipt is
permanently gone: no copy remains, and no later sequence of receives (with
deletes and visibility extensions interleaved, and no re-send) ever returns
it. -/
theorem send_receive_delete_roundtrip (q : MQueue) (m : Msg)
    (t1 c vt t2 : Nat) (e : IFM) (q3 : MQueue)
    (h0 : cnt q m = 0)
    (he : e ∈ (receive (send q m) t1 c vt).1) (hm : e.msg = m)
    (hdel : deleteMessage (receive (send q m) t1 c vt).2 e.receipt t2 = .ok q3) :
    cnt q3 m = 0 ∧ ∀ ops : List QOp, m ∉ receivedAlong q3 ops := by
  have hq2cnt : cnt (receive (send q m) t1 c vt).2 m = 1 := by
    rw [cnt_receive, cnt_send q m, h0]
  have he2 : e ∈ (receive (send q m) t1 c vt).2.inflight := by
    rw [receive_fst] at he
    rw [receive_snd_inflight]
    exact List.mem_append_right _ he
  have hq3 : cnt q3 m = 0 := by
    unfold deleteMessage at hdel
    cases hf : (receive (send q m) t1 c vt).2.inflight.find?
        (fun e2 => e2.receipt == e.receipt) with
    | none =>
      rw [hf] at hdel
      exact Except.noConfusion hdel
    | some e4 =>
      rw [hf] at hdel
      dsimp only at hdel
      by_cases hd : e4.deadline ≤ t2
      · rw [if_pos hd] at hdel
        exact Except.noConfusion hdel
      · rw [if_neg hd] at hdel
        cases hdel
        rw [cnt_split] at hq2cnt ⊢
        dsimp only
        rw [List.countP_filter]
        have hsum := countP_bool_split (fun e2 : IFM => e2.msg == m)
          (fun e2 => !(e2.receipt == e.receipt))
          (receive (send q m) t1 c vt).2.inflight
        have hpos : 0 < (receive (send q m) t1 c vt).2.inflight.countP
            (fun e2 => (e2.msg == m) && !(!(e2.receipt == e.receipt))) :=
          List.countP_pos_iff.mpr ⟨e, he2, by simp [hm]⟩
        omega
  exact ⟨hq3, fun ops => receivedAlong_not_mem ops q3 m hq3⟩

/-- Witness for C8: a one-message round trip — send to the empty queue,
receive at time 0, delete at time 1, and no later receive returns the
message. -/
theorem send_receive_delete_roundtrip_witness :
    (cnt ⟨[], [], 0⟩ ⟨"m", "b"⟩ = 0 ∧
      (⟨⟨"m", "b"⟩, 0, 30⟩ : IFM) ∈ (receive (send ⟨[], [], 0⟩ ⟨"m", "b"⟩) 0 10 30).1 ∧
      deleteMessage (receive (send ⟨[], [], 0⟩ ⟨"m", "b"⟩) 0 10 30).2 0 1 =
        .ok ⟨[], [], 1⟩) ∧
    (cnt (⟨[], [], 1⟩ : MQueue) ⟨"m", "b"⟩ = 0 ∧
      ∀ ops : List QOp, (⟨"m", "b"⟩ : Msg) ∉ receivedAlong ⟨[], [], 1⟩ ops) :=
  ⟨⟨by decide, by decide, rfl⟩,
    send_receive_delete_roundtrip ⟨[], [], 0⟩ ⟨"m", "b"⟩ 0 10 30 1
      ⟨⟨"m", "b"⟩, 0, 30⟩ ⟨[], [], 1⟩ (by decide) (by decide) rfl rfl⟩

end SQS
